import Mathlib

/-!
Shallow embedding of the retrieval/alignment core of the ArchProbe backend
(`src/backend/app/bm25_index.py`, `vector_index.py`, `alignment.py`, `main.py`)
together with theorems settling the frozen claims about its specification.

Modelling conventions:
* Python `float` values are modelled as real numbers (`ℝ`) where `math.log`
  is involved and as elements of an arbitrary `LinearOrderedField` elsewhere,
  so that concrete instances can be evaluated over `ℚ`.
* Python `dict`s (which preserve insertion order) are modelled as association
  lists `List (key × value)` with first-match lookup, in-place update and
  insertion at the end — exactly the observable behaviour of an ordered dict.
* Python `set` iteration order is unspecified; wherever the source iterates
  over a set we iterate over the deduplicated (first occurrence kept) list.
  None of the properties proved below depend on that order.
-/

/-- ASCII letter, i.e. the regex class `[A-Za-z]`. -/
def isAsciiLetter (c : Char) : Bool :=
  ('A' ≤ c && c ≤ 'Z') || ('a' ≤ c && c ≤ 'z')

/-- The regex class `[A-Za-z0-9_]`. -/
def isWordChar (c : Char) : Bool :=
  isAsciiLetter c || ('0' ≤ c && c ≤ '9') || c = '_'

/-- ASCII digit. -/
def isAsciiDigit (c : Char) : Bool :=
  '0' ≤ c && c ≤ '9'

/-- CJK ideograph range used by the tokenizers (regex `[一-鿿]`). -/
def isCJK (c : Char) : Bool :=
  0x4e00 ≤ c.val && c.val ≤ 0x9fff

/-- One step of the scanner for `re.findall(r"[A-Za-z][A-Za-z0-9_]+", ...)`:
the state is the list of finished runs plus the (reversed) run in progress. -/
def wordRunStep (acc : List (List Char) × Option (List Char)) (c : Char) :
    List (List Char) × Option (List Char) :=
  match acc with
  | (done, some cur) =>
    if isWordChar c then (done, some (c :: cur))
    else if 2 ≤ cur.length then (done ++ [cur.reverse], none)
    else (done, none)
  | (done, none) =>
    if isAsciiLetter c then (done, some [c]) else (done, none)

/-- All matches of `[A-Za-z][A-Za-z0-9_]+` in a character list: maximal runs
of word characters that start with a letter and have length at least two
(the `+` demands one character beyond the leading letter). -/
def wordRuns (l : List Char) : List (List Char) :=
  match l.foldl wordRunStep ([], none) with
  | (done, some cur) => if 2 ≤ cur.length then done ++ [cur.reverse] else done
  | (done, none) => done

/-- Scanner step for maximal runs of CJK ideographs (`[一-鿿]+`). -/
def cjkRunStep (acc : List (List Char) × Option (List Char)) (c : Char) :
    List (List Char) × Option (List Char) :=
  match acc with
  | (done, some cur) =>
    if isCJK c then (done, some (c :: cur)) else (done ++ [cur.reverse], none)
  | (done, none) =>
    if isCJK c then (done, some [c]) else (done, none)

/-- All maximal runs of CJK ideographs in a character list. -/
def cjkRuns (l : List Char) : List (List Char) :=
  match l.foldl cjkRunStep ([], none) with
  | (done, some cur) => done ++ [cur.reverse]
  | (done, none) => done

/-- Overlapping bigrams of a run (`run[idx : idx+2]` for `idx < len run - 1`). -/
def bigramsOf : List Char → List String
  | a :: b :: rest => String.mk [a, b] :: bigramsOf (b :: rest)
  | _ => []

/-- A single-ideograph run becomes its own token; longer runs are split into
overlapping bigrams, as in the `for run in re.findall(...)` loop. -/
def cjkTokens (l : List Char) : List String :=
  (cjkRuns l).foldl
    (fun acc run =>
      if run.length = 1 then acc ++ [String.mk run] else acc ++ bigramsOf run)
    []

/-- Lowercase a string character by character (`str.lower()`; the tokens the
tokenizers produce are ASCII or CJK, on which `Char.toLower` agrees). -/
def lowerStr (s : String) : String :=
  String.mk (s.data.map Char.toLower)

/-- `_tokenize` (shared shape of `bm25_index._tokenize` and
`alignment._tokenize`, which differ only in the minimum ASCII token length):
ASCII word tokens of length at least `minLen`, lowercased, followed by the
CJK bigram tokens. -/
def tokenizeMin (minLen : Nat) (text : String) : List String :=
  ((wordRuns text.data).filter (fun r => minLen ≤ r.length)).map
      (fun r => lowerStr (String.mk r))
    ++ cjkTokens text.data

/-- `bm25_index._tokenize` (also `vector_index._tokenize`): length ≥ 3. -/
def _tokenize_bm25 (text : String) : List String := tokenizeMin 3 text

/-- `alignment._tokenize`: length ≥ 4. -/
def _tokenize_align (text : String) : List String := tokenizeMin 4 text

/-- `main._tokenize_query`: ASCII word tokens of length ≥ 3 only, no CJK
handling. -/
def _tokenize_query (text : String) : List String :=
  ((wordRuns text.data).filter (fun r => 3 ≤ r.length)).map
    (fun r => lowerStr (String.mk r))

example : _tokenize_bm25 "cat dog cat" = ["cat", "dog", "cat"] := by decide
example : _tokenize_bm25 "dog dog fish" = ["dog", "dog", "fish"] := by decide
example : _tokenize_bm25 "We use a caching layer" = ["use", "caching", "layer"] := by
  decide
example : _tokenize_align "We use a caching layer" = ["caching", "layer"] := by
  decide
example : _tokenize_query "hi" = [] := by decide

/-! ### Ordered-dict primitives -/

/-- `d.get(k, default)`: first-match lookup with a default. -/
def lookupD {β : Type} (m : List (String × β)) (k : String) (d : β) : β :=
  match m.find? (fun p => p.1 = k) with
  | some p => p.2
  | none => d

/-- `d[k] = d.get(k, 0) + 1`: bump a counter in place, inserting at the end
when the key is new (Python dicts preserve insertion order). -/
def bumpCount (m : List (String × Nat)) (k : String) : List (String × Nat) :=
  if m.any (fun p => p.1 = k) then
    m.map (fun p => if p.1 = k then (p.1, p.2 + 1) else p)
  else m ++ [(k, 1)]

/-- `d[k] = v`: overwrite in place or insert at the end. -/
def setVal {β : Type} (m : List (String × β)) (k : String) (v : β) :
    List (String × β) :=
  if m.any (fun p => p.1 = k) then
    m.map (fun p => if p.1 = k then (p.1, v) else p)
  else m ++ [(k, v)]

/-- `d.setdefault(k, []).append(x)`. -/
def appendAt {β : Type} (m : List (String × List β)) (k : String) (x : β) :
    List (String × List β) :=
  if m.any (fun p => p.1 = k) then
    m.map (fun p => if p.1 = k then (p.1, p.2 ++ [x]) else p)
  else m ++ [(k, [x])]

/-- `d[k] = d.get(k, 0.0) + v`: accumulate a score. -/
def addTo {α : Type} [Add α] (m : List (String × α)) (k : String) (v : α) :
    List (String × α) :=
  if m.any (fun p => p.1 = k) then
    m.map (fun p => if p.1 = k then (p.1, p.2 + v) else p)
  else m ++ [(k, v)]

/-! ### Stable descending sort

`sorted(xs, key=key, reverse=True)` and `heapq.nlargest(n, xs, key=key)`
order by `key` descending and keep the original relative order of equal keys.
A stable insertion sort has exactly that behaviour: each element is inserted
after all earlier elements whose key is not smaller. -/

/-- Insert `x` into a descending-sorted list, after equal keys. -/
def insertDescBy {β γ : Type} [LinearOrder γ] (key : β → γ) (x : β) :
    List β → List β
  | [] => [x]
  | y :: ys => if key y < key x then x :: y :: ys else y :: insertDescBy key x ys

/-- Stable sort, descending by `key`. -/
def sortDescBy {β γ : Type} [LinearOrder γ] (key : β → γ) (xs : List β) :
    List β :=
  xs.foldl (fun acc x => insertDescBy key x acc) []

theorem mem_insertDescBy {β γ : Type} [LinearOrder γ] (key : β → γ) (x a : β)
    (l : List β) : a ∈ insertDescBy key x l ↔ a = x ∨ a ∈ l := by
  induction l with
  | nil => simp [insertDescBy]
  | cons y ys ih =>
    simp only [insertDescBy]
    by_cases h : key y < key x
    · simp [h]
    · simp only [h, if_false, List.mem_cons, ih]
      tauto

theorem mem_sortDescBy_aux {β γ : Type} [LinearOrder γ] (key : β → γ)
    (l : List β) (acc : List β) (a : β) :
    a ∈ l.foldl (fun acc x => insertDescBy key x acc) acc ↔ a ∈ acc ∨ a ∈ l := by
  induction l generalizing acc with
  | nil => simp
  | cons x xs ih =>
    simp only [List.foldl_cons, ih, mem_insertDescBy, List.mem_cons]
    tauto

theorem mem_sortDescBy {β γ : Type} [LinearOrder γ] (key : β → γ) (l : List β)
    (a : β) : a ∈ sortDescBy key l ↔ a ∈ l := by
  simp [sortDescBy, mem_sortDescBy_aux]

theorem sortDescBy_sorted {β γ : Type} [LinearOrder γ] (key : β → γ)
    (l : List β) :
    (sortDescBy key l).Pairwise (fun a b => key b ≤ key a) := by
  have hins : ∀ (x : β) (acc : List β),
      acc.Pairwise (fun a b => key b ≤ key a) →
      (insertDescBy key x acc).Pairwise (fun a b => key b ≤ key a) := by
    intro x acc
    induction acc with
    | nil => intro _; simp [insertDescBy]
    | cons y ys ih =>
      intro h
      rw [List.pairwise_cons] at h
      simp only [insertDescBy]
      by_cases hlt : key y < key x
      · rw [if_pos hlt, List.pairwise_cons]
        constructor
        · intro b hb
          rcases List.mem_cons.mp hb with hb | hb
          · subst hb; exact le_of_lt hlt
          · exact le_trans (h.1 b hb) (le_of_lt hlt)
        · exact List.pairwise_cons.mpr h
      · rw [if_neg hlt, List.pairwise_cons]
        constructor
        · intro b hb
          rcases (mem_insertDescBy key x b ys).mp hb with hb | hb
          · subst hb; exact le_of_not_lt hlt
          · exact h.1 b hb
        · exact ih h.2
  have haux : ∀ (l acc : List β),
      acc.Pairwise (fun a b => key b ≤ key a) →
      (l.foldl (fun acc x => insertDescBy key x acc) acc).Pairwise
        (fun a b => key b ≤ key a) := by
    intro l
    induction l with
    | nil => intro acc h; simpa using h
    | cons x xs ih => intro acc h; exact ih _ (hins x acc h)
  exact haux l [] (by simp)

theorem sortDescBy_eq_nil_iff {β γ : Type} [LinearOrder γ] (key : β → γ)
    (l : List β) : sortDescBy key l = [] ↔ l = [] := by
  constructor
  · intro h
    cases l with
    | nil => rfl
    | cons x xs =>
      exfalso
      have : x ∈ sortDescBy key (x :: xs) := (mem_sortDescBy ..).mpr (by simp)
      rw [h] at this
      exact absurd this (List.not_mem_nil x)
  · intro h; subst h; rfl

/-! ### First-seen deduplication

`for token in set(tokens)` iterates over a set in unspecified order; we model
it as iteration over the list of first occurrences. -/

/-- Deduplicate, keeping the first occurrence of each element in order. -/
def dedupFS (l : List String) : List String :=
  l.foldl (fun acc a => if a ∈ acc then acc else acc ++ [a]) []

theorem mem_dedupFS_aux (l : List String) :
    ∀ (acc : List String) (a : String),
      a ∈ l.foldl (fun acc a => if a ∈ acc then acc else acc ++ [a]) acc ↔
        a ∈ acc ∨ a ∈ l := by
  induction l with
  | nil => intro acc a; simp
  | cons b l ih =>
    intro acc a
    rw [List.foldl_cons]
    by_cases hb : b ∈ acc
    · rw [if_pos hb, ih]
      constructor
      · rintro (h | h)
        · exact Or.inl h
        · exact Or.inr (List.mem_cons_of_mem b h)
      · rintro (h | h)
        · exact Or.inl h
        · rcases List.mem_cons.mp h with he | h
          · exact Or.inl (he ▸ hb)
          · exact Or.inr h
    · rw [if_neg hb, ih]
      simp only [List.mem_append, List.mem_singleton, List.mem_cons]
      tauto

theorem mem_dedupFS (l : List String) (a : String) :
    a ∈ dedupFS l ↔ a ∈ l := by
  unfold dedupFS
  rw [mem_dedupFS_aux]
  simp

theorem dedupFS_ne_nil (l : List String) (h : l ≠ []) : dedupFS l ≠ [] := by
  cases l with
  | nil => exact absurd rfl h
  | cons a l =>
    intro hnil
    have : a ∈ dedupFS (a :: l) := (mem_dedupFS _ a).mpr (by simp)
    rw [hnil] at this
    cases this

/-! ### `bm25_index.py`: building the lexical index -/

/-- A document handed to the index builders (`{doc_id, text}`). -/
structure Doc where
  doc_id : String
  text : String
deriving DecidableEq

/-- `tokenized = [(_doc_id(doc), _tokenize(doc.get("text", ""))) for doc in docs]`. -/
def tokenizedDocs (docs : List Doc) : List (String × List String) :=
  docs.map (fun d => (d.doc_id, _tokenize_bm25 d.text))

/-- The per-document term-frequency dict (`tf` in the build loop). -/
def docTf (tokens : List String) : List (String × Nat) :=
  tokens.foldl (fun m t => bumpCount m t) []

/-- `doc_len` after the build loop. -/
def buildDocLen (docs : List Doc) : List (String × Nat) :=
  (tokenizedDocs docs).foldl (fun m p => setVal m p.1 p.2.length) []

/-- `df` after the build loop. -/
def buildDf (docs : List Doc) : List (String × Nat) :=
  (tokenizedDocs docs).foldl
    (fun m p => (docTf p.2).foldl (fun m q => bumpCount m q.1) m) []

/-- `postings` after the build loop. -/
def buildPostings (docs : List Doc) : List (String × List (String × Nat)) :=
  (tokenizedDocs docs).foldl
    (fun m p => (docTf p.2).foldl (fun m q => appendAt m q.1 (p.1, q.2)) m) []

/-- Sum of the values of a `Nat`-valued dict (`sum(doc_len.values())`). -/
def sumValsNat (m : List (String × Nat)) : Nat :=
  m.foldl (fun a p => a + p.2) 0

/-- Sum of the values of a real-valued dict (`sum(float(v) for v in idf.values())`). -/
def sumValsR (m : List (String × ℝ)) : ℝ :=
  m.foldl (fun a p => a + p.2) 0

/-- `math.log((doc_count - count + 0.5) / (count + 0.5))`, the raw idf of a
term with document frequency `df`.  `math.log` is modelled by `Real.log`
(exact natural logarithm). -/
noncomputable def rawIdfVal (doc_count df : Nat) : ℝ :=
  Real.log (((doc_count : ℝ) - (df : ℝ) + 1 / 2) / ((df : ℝ) + 1 / 2))

/-- The raw idf dict:
`idf = {token: math.log((doc_count - count + 0.5) / (count + 0.5)) for token, count in df.items()}`. -/
noncomputable def rawIdfList (docs : List Doc) : List (String × ℝ) :=
  (buildDf docs).map (fun p => (p.1, rawIdfVal docs.length p.2))

/-- `avg_idf` (0.0 when the idf dict is empty). -/
noncomputable def avgIdf (docs : List Doc) : ℝ :=
  if (rawIdfList docs).isEmpty then 0
  else sumValsR (rawIdfList docs) / ((rawIdfList docs).length : ℝ)

/-- The idf dict after the negative-idf smoothing pass:
entries `< 0` are overwritten with `epsilon * avg_idf` when
`avg_idf > 0.0 and epsilon > 0.0`. -/
noncomputable def idfFinal (docs : List Doc) (epsilon : ℝ) : List (String × ℝ) :=
  if 0 < avgIdf docs ∧ 0 < epsilon then
    (rawIdfList docs).map
      (fun p => if p.2 < 0 then (p.1, epsilon * avgIdf docs) else p)
  else rawIdfList docs

/-- The built lexical index (the dict returned by `build_bm25_index`; the
constant `schema_version` field is omitted). -/
structure BM25Index where
  doc_count : Nat
  avgdl : ℝ
  k1 : ℝ
  b : ℝ
  epsilon : ℝ
  idf : List (String × ℝ)
  doc_len : List (String × Nat)
  postings : List (String × List (String × Nat))

/-- `build_bm25_index(docs, k1, b, epsilon)`. -/
noncomputable def build_bm25_index (docs : List Doc) (k1 b epsilon : ℝ) :
    BM25Index where
  doc_count := docs.length
  avgdl :=
    if docs.length = 0 then 0
    else (sumValsNat (buildDocLen docs) : ℝ) / (docs.length : ℝ)
  k1 := k1
  b := b
  epsilon := epsilon
  idf := idfFinal docs epsilon
  doc_len := buildDocLen docs
  postings := buildPostings docs

/-! ### `bm25_index.py`: querying

`query_bm25_index` receives the index as a parsed JSON dict and coerces the
fields it uses (`_as_float_dict`, `_as_postings`, `_as_float`).  The record
below is the well-typed content of such a dict after the numeric coercions;
`cleanPostings` keeps the `_as_postings` filtering (dropping non-positive
term frequencies and then empty posting lists), which is observable for
hand-crafted indices.  The score field is polymorphic over a linear ordered
field so that concrete instances can be computed over `ℚ`. -/

structure BM25QueryIndex (α : Type) where
  idf : List (String × α)
  postings : List (String × List (String × α))
  doc_len : List (String × α)
  avgdl : α
  k1 : α
  b : α

/-- `_as_postings`: per term, drop entries with `tf <= 0`; drop terms whose
cleaned list is empty. -/
def cleanPostings {α : Type} [LinearOrderedField α]
    (m : List (String × List (String × α))) :
    List (String × List (String × α)) :=
  (m.map (fun p => (p.1, p.2.filter (fun q => ¬ q.2 ≤ 0)))).filter
    (fun p => ¬ p.2 = [])

/-- The view of a built index that `query_bm25_index` sees after coercions. -/
def toQueryIndex (i : BM25Index) : BM25QueryIndex ℝ where
  idf := i.idf
  postings := i.postings.map (fun p => (p.1, p.2.map (fun q => (q.1, (q.2 : ℝ)))))
  doc_len := i.doc_len.map (fun p => (p.1, (p.2 : ℝ)))
  avgdl := i.avgdl
  k1 := i.k1
  b := i.b

/-- The body of the `for doc_id, tf_i in postings.get(token, [])` loop. -/
def scorePosting {α : Type} [LinearOrderedField α] (idx : BM25QueryIndex α)
    (tokenIdf : α) (sc : List (String × α)) (p : String × α) :
    List (String × α) :=
  let dl := lookupD idx.doc_len p.1 0
  if dl ≤ 0 then sc
  else if p.2 ≤ 0 then sc
  else
    let denom := p.2 + idx.k1 * (1 - idx.b + idx.b * (dl / idx.avgdl))
    if denom ≤ 0 then sc
    else addTo sc p.1 (tokenIdf * (p.2 * (idx.k1 + 1)) / denom)

/-- The body of the `for token in set(tokens)` loop. -/
def scoreToken {α : Type} [LinearOrderedField α] (idx : BM25QueryIndex α)
    (postings : List (String × List (String × α))) (sc : List (String × α))
    (token : String) : List (String × α) :=
  let tokenIdf := lookupD idx.idf token 0
  if tokenIdf ≤ 0 then sc
  else (lookupD postings token []).foldl (scorePosting idx tokenIdf) sc

/-- `query_bm25_index(index, question, top_k)`. -/
def query_bm25_index {α : Type} [LinearOrderedField α] (idx : BM25QueryIndex α)
    (question : String) (top_k : Nat) : List (String × α) :=
  let tokens := _tokenize_bm25 question
  if tokens = [] then []
  else
    let postings := cleanPostings idx.postings
    if postings = [] ∨ idx.doc_len = [] ∨ idx.avgdl ≤ 0 then []
    else
      let scores := (dedupFS tokens).foldl (scoreToken idx postings) []
      (sortDescBy Prod.snd scores).take top_k

/-! ### `vector_index.py`: the `doc_ids` of a vector build

`build_vector_index` first computes
`doc_ids = [str(doc.get("doc_id", "")) for doc in docs if str(doc.get("doc_id", ""))]`;
documents with an empty id are excluded.  The rest of the build calls the
external embedding backend and either keeps exactly this `doc_ids` list
(`backend: "faiss"`) or returns the explicitly empty index with
`doc_ids = []`; in both cases the returned `doc_ids` is a subset of the list
below. -/
def build_vector_index_doc_ids (docs : List Doc) : List String :=
  (docs.filter (fun d => ¬ d.doc_id = "")).map (fun d => d.doc_id)

/-! ### JSON values and Python-ish helpers

`alignment.py` and the evidence pipeline in `main.py` work on parsed JSON
(`dict`/`list`/`str`/numbers); we model those values explicitly.  Numbers are
modelled as rationals. -/

inductive JValue where
  | null
  | bool (b : Bool)
  | num (q : ℚ)
  | str (s : String)
  | arr (items : List JValue)
  | obj (fields : List (String × JValue))

instance : Inhabited JValue := ⟨.null⟩

/-- `j.get(k, d)` for a dict `j`; returns the default on non-dicts (every
call site in the source is behind an `isinstance(•, dict)` guard). -/
def jGet (j : JValue) (k : String) (d : JValue) : JValue :=
  match j with
  | .obj fs =>
    match fs.find? (fun p => p.1 = k) with
    | some p => p.2
    | none => d
  | _ => d

/-- Python `str(value)`.  Only the `str` branch is exercised by the claims;
the rendering of non-string scalars is an inessential approximation of
`str()`. -/
def pyStr : JValue → String
  | .str s => s
  | .num q => if q.den = 1 then toString q.num else toString q
  | .bool b => if b then "True" else "False"
  | .null => "None"
  | .arr _ => "<list>"
  | .obj _ => "<dict>"

/-- Python truthiness of a JSON value. -/
def pyTruthy : JValue → Bool
  | .null => false
  | .bool b => b
  | .num q => ¬ q = 0
  | .str s => ¬ s = ""
  | .arr xs => ¬ xs.isEmpty
  | .obj fs => ¬ fs.isEmpty

/-- `[str(x) for x in raw] if isinstance(raw, list) else []`. -/
def strListOf (j : JValue) : List String :=
  match j with
  | .arr xs => xs.map pyStr
  | _ => []

/-- `isinstance(j, dict)`. -/
def isObj : JValue → Bool
  | .obj _ => true
  | _ => false

/-- Python `int(•)` on a number: truncation toward zero. -/
def pyInt (q : ℚ) : ℤ :=
  if 0 ≤ q then ⌊q⌋ else -⌊-q⌋

/-- Errors raised by the alignment build. -/
inductive PyErr where
  | fileNotFound
  | jsonDecode
  | attributeError
  | typeError
deriving DecidableEq

/-- `len(•)`: defined on strings, lists and dicts; raises `TypeError`
otherwise. -/
def pyLen : JValue → Except PyErr Nat
  | .str s => .ok s.length
  | .arr xs => .ok xs.length
  | .obj fs => .ok fs.length
  | _ => .error .typeError

/-- `j.get(k, d)` where `j` may not be a dict: raises `AttributeError` then
(used to model the unguarded `paper.get("paragraphs", [])`). -/
def dictGetE (j : JValue) (k : String) (d : JValue) : Except PyErr JValue :=
  match j with
  | .obj _ => .ok (jGet j k d)
  | _ => .error .attributeError

/-! ### `alignment.py`: identifier/path tokenization -/

/-- Lowercase ASCII letter. -/
def isLowerCh (c : Char) : Bool := 'a' ≤ c && c ≤ 'z'

/-- Uppercase ASCII letter. -/
def isUpperCh (c : Char) : Bool := 'A' ≤ c && c ≤ 'Z'

/-- The scanner state for `_split_camel`
(regex `[A-Z]?[a-z]+|[A-Z]+(?![a-z])|\d+`, reading left to right): the
(reversed) token in progress, if any, tagged by its kind. -/
inductive CamelSt where
  | idle
  | low (t : List Char)
  | up (t : List Char)
  | dig (t : List Char)

/-- Start a fresh camel token at `c` (or skip a non-token character). -/
def camelNew (c : Char) : CamelSt :=
  if isUpperCh c then .up [c]
  else if isLowerCh c then .low [c]
  else if isAsciiDigit c then .dig [c]
  else .idle

/-- One step of the `_split_camel` scanner.  An uppercase run followed by a
lowercase letter gives up its last capital to the following
`[A-Z]?[a-z]+` match, mirroring the regex backtracking. -/
def camelStep (acc : List (List Char) × CamelSt) (c : Char) :
    List (List Char) × CamelSt :=
  match acc with
  | (done, .idle) => (done, camelNew c)
  | (done, .low t) =>
    if isLowerCh c then (done, .low (c :: t))
    else (done ++ [t.reverse], camelNew c)
  | (done, .dig t) =>
    if isAsciiDigit c then (done, .dig (c :: t))
    else (done ++ [t.reverse], camelNew c)
  | (done, .up t) =>
    if isUpperCh c then (done, .up (c :: t))
    else if isLowerCh c then
      match t with
      | [last] => (done, .low [c, last])
      | _ => (done ++ [(t.drop 1).reverse], .low (c :: t.take 1))
    else (done ++ [t.reverse], camelNew c)

/-- `_split_camel(value)`. -/
def _split_camel (s : String) : List String :=
  (match s.data.foldl camelStep ([], .idle) with
   | (done, .idle) => done
   | (done, .low t) => done ++ [t.reverse]
   | (done, .up t) => done ++ [t.reverse]
   | (done, .dig t) => done ++ [t.reverse]).map String.mk

example : _split_camel "CacheLayer" = ["Cache", "Layer"] := by decide
example : _split_camel "HTTPServer" = ["HTTP", "Server"] := by decide
example : _split_camel "utils" = ["utils"] := by decide
example : _split_camel "Py2x" = ["Py", "2", "x"] := by decide
example : _split_camel "AB9" = ["AB", "9"] := by decide
example : _split_camel "aB" = ["a", "B"] := by decide

/-- The separator class of `re.split(r"[\\/_\-.]", path)`. -/
def isSepCh (c : Char) : Bool :=
  c = '\\' || c = '/' || c = '_' || c = '-' || c = '.'

/-- `re.split` on the separator class (empty parts included). -/
def splitSeps (l : List Char) : List (List Char) :=
  match l.foldl
      (fun (acc : List (List Char) × List Char) c =>
        if isSepCh c then (acc.1 ++ [acc.2.reverse], []) else (acc.1, c :: acc.2))
      ([], []) with
  | (done, cur) => done ++ [cur.reverse]

/-- `_split_path_tokens(path)`. -/
def _split_path_tokens (path : String) : List String :=
  (((splitSeps path.data).filter (fun p => ¬ p.isEmpty)).foldl
      (fun acc part => acc ++ _split_camel (String.mk part)) []).filterMap
    (fun t => if 3 ≤ t.length then some (lowerStr t) else none)

example : _split_path_tokens "src/cache.py" = ["src", "cache"] := by decide
example : _split_path_tokens "utils.py" = ["utils"] := by decide

/-! ### `alignment.py`: candidates, inverted index, ranking -/

/-- `_build_text_lookup(entries)`: path → excerpt, later entries overwrite
earlier ones, empty paths skipped. -/
def _build_text_lookup (entries : List JValue) : List (String × String) :=
  entries.foldl
    (fun lk e =>
      let path := pyStr (jGet e "path" (.str ""))
      let excerpt := pyStr (jGet e "excerpt" (.str ""))
      if path = "" then lk else setVal lk path excerpt)
    []

/-- The `tokens` list of a candidate dict. -/
def tokensOfCand (item : JValue) : List String :=
  strListOf (jGet item "tokens" (.arr []))

/-- `_build_symbol_candidates(entries, text_lookup)`. -/
def _build_symbol_candidates (entries : List JValue)
    (text_lookup : List (String × String)) : List JValue :=
  entries.map
    (fun e =>
      let name := pyStr (jGet e "name" (.str ""))
      let path := pyStr (jGet e "path" (.str ""))
      JValue.obj
        [("kind", .str "symbol"), ("path", .str path), ("name", .str name),
         ("type", .str (pyStr (jGet e "type" (.str "")))),
         ("line", .str (pyStr (jGet e "line" (.str "")))),
         ("excerpt", .str (lookupD text_lookup path "")),
         ("tokens",
          .arr ((_tokenize_align name ++ _split_path_tokens path).map JValue.str))])

/-- `_build_file_candidates(entries)`. -/
def _build_file_candidates (entries : List JValue) : List JValue :=
  entries.map
    (fun e =>
      let path := pyStr (jGet e "path" (.str ""))
      JValue.obj
        [("kind", .str "file"), ("path", .str path),
         ("excerpt", .str (pyStr (jGet e "excerpt" (.str "")))),
         ("tokens", .arr ((_split_path_tokens path).map JValue.str))])

/-- `_build_inverted_index(candidates)`: token → candidate indices, indices
appended in enumeration order. -/
def _build_inverted_index (candidates : List JValue) : List (String × List Nat) :=
  candidates.enum.foldl
    (fun idx p =>
      (dedupFS (tokensOfCand p.2)).foldl (fun idx token => appendAt idx token p.1)
        idx)
    []

/-- `_iter_candidates(token_set, candidates, inverted)`: union of the posting
lists of the query tokens, first hit wins, in token-then-posting order. -/
def _iter_candidates (tokenSet : List String) (candidates : List JValue)
    (inverted : List (String × List Nat)) : List JValue :=
  (tokenSet.foldl
      (fun (acc : List Nat × List JValue) token =>
        (lookupD inverted token []).foldl
          (fun acc idx =>
            if idx ∈ acc.1 then acc
            else (acc.1 ++ [idx], acc.2 ++ [candidates.getD idx .null]))
          acc)
      ([], [])).2

/-- `_score_tokens(text_tokens, candidate_tokens)`. -/
def _score_tokens (textTokens : List String) (candTokens : List String) :
    Nat × List String :=
  let matched := candTokens.filter (fun t => t ∈ textTokens)
  (matched.length, matched)

/-- `_score_value(item)` (the heap key of `_rank_candidates`).  Python's
`isinstance(•, int)` also accepts booleans; floats are truncated; digit
strings are parsed. -/
def _score_value (item : JValue) : ℤ :=
  match jGet item "score" (.num 0) with
  | .num q => pyInt q
  | .bool b => if b then 1 else 0
  | .str s => ((s.toNat?).getD 0 : ℤ)
  | _ => 0

/-- The scored-match dict built from a symbol candidate. -/
def scoredOfSymbol (entry : JValue) (score : Nat) (matched : List String) :
    JValue :=
  .obj
    [("kind", .str (pyStr (jGet entry "kind" (.str "")))),
     ("path", .str (pyStr (jGet entry "path" (.str "")))),
     ("name", .str (pyStr (jGet entry "name" (.str "")))),
     ("type", .str (pyStr (jGet entry "type" (.str "")))),
     ("line", .str (pyStr (jGet entry "line" (.str "")))),
     ("excerpt", .str ((pyStr (jGet entry "excerpt" (.str ""))).take 200)),
     ("matched_tokens", .arr (matched.map JValue.str)),
     ("score", .num score)]

/-- The scored-match dict built from a file candidate. -/
def scoredOfFile (entry : JValue) (score : Nat) (matched : List String) :
    JValue :=
  .obj
    [("kind", .str (pyStr (jGet entry "kind" (.str "")))),
     ("path", .str (pyStr (jGet entry "path" (.str "")))),
     ("excerpt", .str ((pyStr (jGet entry "excerpt" (.str ""))).take 200)),
     ("matched_tokens", .arr (matched.map JValue.str)),
     ("score", .num score)]

/-- The `scored` list of `_rank_candidates`: candidates touched by the query
tokens, scored by token overlap, zero-score candidates dropped. -/
def scoredList (tokenSet : List String) (cands : List JValue)
    (inverted : List (String × List Nat)) (isSymbol : Bool) : List JValue :=
  (_iter_candidates tokenSet cands inverted).filterMap
    (fun entry =>
      let sm := _score_tokens tokenSet (tokensOfCand entry)
      if sm.1 = 0 then none
      else if isSymbol then some (scoredOfSymbol entry sm.1 sm.2)
      else some (scoredOfFile entry sm.1 sm.2))

/-- `_rank_candidates(tokens, symbols, files, symbol_inverted, file_inverted)`:
the top-5 matches (by score, descending, stable) and the paragraph
confidence `min(best_score / max(len(set(tokens)), 1), 1.0)`. -/
def _rank_candidates (tokens : List String) (symbols files : List JValue)
    (symbolInv fileInv : List (String × List Nat)) : List JValue × ℚ :=
  let tokenSet := dedupFS tokens
  let scored :=
    scoredList tokenSet symbols symbolInv true
      ++ scoredList tokenSet files fileInv false
  let top := (sortDescBy _score_value scored).take 5
  if tokens = [] then (top, 0)
  else
    let best : ℤ :=
      match top with
      | [] => 0
      | m :: _ => _score_value m
    (top, min ((best : ℚ) / ((max tokenSet.length 1 : ℕ) : ℚ)) 1)

/-! ### `alignment.py`: the alignment map -/

/-- `f"{q:.3f}"`: fixed-point rendering with three decimals, round half to
even (as CPython formats floats; exact on every value exercised here). -/
def fmt3 (q : ℚ) : String :=
  let neg := q < 0
  let a := |q| * 1000
  let fl : ℤ := ⌊a⌋
  let r := a - (fl : ℚ)
  let n : ℤ :=
    if 1 / 2 < r then fl + 1
    else if r < 1 / 2 then fl
    else if fl % 2 = 0 then fl else fl + 1
  let nn := n.toNat
  let ip := nn / 1000
  let fp := nn % 1000
  let pad := if fp < 10 then "00" else if fp < 100 then "0" else ""
  (if neg then "-" else "") ++ toString ip ++ "." ++ pad ++ toString fp

/-- The extraction `symbol_entries` / `text_entries`: the given key's value
when the input is a dict holding a list there, keeping only dict items. -/
def dictEntries (j : JValue) (key : String) : List JValue :=
  match j with
  | .obj _ =>
    match jGet j key .null with
    | .arr l => l.filter isObj
    | _ => []
  | _ => []

/-- `paper.get("paragraphs", []) if isinstance(paper, dict) else []`, with
non-list values replaced by `[]`. -/
def rawParagraphs (paper : JValue) : List JValue :=
  match paper with
  | .obj _ =>
    match jGet paper "paragraphs" (.arr []) with
    | .arr l => l
    | _ => []
  | _ => []

/-- One step of the `for idx, paragraph in enumerate(raw_paragraphs)` loop of
`build_alignment_map`: non-dict paragraphs and paragraphs with no tokens are
skipped, the rest produce a result dict with string-rendered
`paragraph_index`, `page`, `text_excerpt` and `confidence` fields. -/
def alignStep (symbol_candidates file_candidates : List JValue)
    (symInv fileInv : List (String × List Nat)) (res : List JValue)
    (p : Nat × JValue) : List JValue :=
  match p.2 with
  | .obj fs =>
    let text := pyStr (jGet (.obj fs) "text" (.str ""))
    let tokens := _tokenize_align text
    if tokens = [] then res
    else
      let mc :=
        _rank_candidates tokens symbol_candidates file_candidates symInv
          fileInv
      res ++
        [JValue.obj
            [("paragraph_index", .str (toString p.1)),
             ("page", .str (pyStr (jGet (.obj fs) "page" (.str "")))),
             ("text_excerpt", .str (text.take 240)),
             ("confidence", .str (fmt3 mc.2)),
             ("matches", .arr mc.1)]]
  | _ => res

/-- The `results` list of `build_alignment_map`. -/
def alignResults (paper : JValue) (symbol_candidates file_candidates :
    List JValue) (symInv fileInv : List (String × List Nat)) : List JValue :=
  (rawParagraphs paper).enum.foldl
    (alignStep symbol_candidates file_candidates symInv fileInv) []

/-- The body of `build_alignment_map` after the three `json.loads` calls.
Only the final `len(paper.get("paragraphs", []))` can raise (an
`AttributeError` on a non-dict paper, a `TypeError` on a non-sized
`paragraphs` value); everything else degrades per item. -/
def alignCore (paper symbols text_index : JValue) : Except PyErr JValue :=
  let symbol_entries := dictEntries symbols "symbols"
  let text_entries := dictEntries text_index "entries"
  let text_lookup := _build_text_lookup text_entries
  let symbol_candidates := _build_symbol_candidates symbol_entries text_lookup
  let file_candidates := _build_file_candidates text_entries
  let symbol_inverted := _build_inverted_index symbol_candidates
  let file_inverted := _build_inverted_index file_candidates
  let results :=
    alignResults paper symbol_candidates file_candidates symbol_inverted
      file_inverted
  match dictGetE paper "paragraphs" (.arr []) with
  | .error e => .error e
  | .ok praw =>
    match pyLen praw with
    | .error e => .error e
    | .ok n =>
      .ok
        (.obj
          [("paragraph_count", .str (toString n)),
           ("match_count", .str (toString results.length)),
           ("results", .arr results)])

/-- The state of one of the three input files of `build_alignment_map`:
missing, present but not valid JSON, or parsed JSON content. -/
inductive FileInput where
  | missing
  | unparseable
  | content (j : JValue)

/-- Does this input hold unparseable bytes? -/
def FileInput.bad : FileInput → Bool
  | .unparseable => true
  | _ => false

/-- `json.loads(path.read_text())`: raises `FileNotFoundError` on a missing
file and `json.JSONDecodeError` on invalid JSON (used for the paper input). -/
def pyLoadJson : FileInput → Except PyErr JValue
  | .missing => .error .fileNotFound
  | .unparseable => .error .jsonDecode
  | .content j => .ok j

/-- `_safe_load_json(path)`: `{}` when the file does not exist, otherwise
`json.loads` — which still raises on invalid JSON. -/
def _safe_load_json : FileInput → Except PyErr JValue
  | .missing => .ok (.obj [])
  | .unparseable => .error .jsonDecode
  | .content j => .ok j

/-- `build_alignment_map(parsed_path, symbol_path, text_index_path)`:
the paper is loaded with a bare `json.loads`, the symbol table and the text
index through `_safe_load_json`. -/
def build_alignment_map (paperF symF textF : FileInput) :
    Except PyErr JValue :=
  match pyLoadJson paperF with
  | .error e => .error e
  | .ok paper =>
    match _safe_load_json symF with
    | .error e => .error e
    | .ok symbols =>
      match _safe_load_json textF with
      | .error e => .error e
      | .ok text_index => alignCore paper symbols text_index

/-! ### `main.py`: question router -/

/-- Substring test on character lists (Python `needle in haystack`). -/
def isSubList (n : List Char) : List Char → Bool
  | [] => n.isEmpty
  | c :: t => n.isPrefixOf (c :: t) || isSubList n t

/-- `needle in haystack` on strings. -/
def strContains (haystack needle : String) : Bool :=
  isSubList needle.data haystack.data

example : strContains "which function in utils.py" "function" = true := by decide
example : strContains "what equation" "proof" = false := by decide

/-- Python whitespace stripped by `str.strip()` (ASCII part). -/
def isPyWs (c : Char) : Bool :=
  c = ' ' || c = '\t' || c = '\n' || c = '\r' || c = Char.ofNat 11 ||
    c = Char.ofNat 12

/-- `question.strip()`. -/
def pyStrip (s : String) : String :=
  String.mk (((s.data.dropWhile isPyWs).reverse.dropWhile isPyWs).reverse)

/-- The `code_markers` list of `_route_question`. -/
def code_markers : List String :=
  ["code", "repo", "repository", "file", "files", "filepath", "path",
   "function", "class", "module", "import", "endpoint", "api", "fastapi",
   "frontend", "backend", "typescript", "react", "implementation", "where is",
   "which file"]

/-- The `paper_markers` list of `_route_question`. -/
def paper_markers : List String :=
  ["paper", "section", "figure", "table", "equation", "theorem", "lemma",
   "proof", "appendix", "abstract", "introduction", "method", "experiment",
   "results", "dataset", "hyperparameter", "ablation", "arxiv"]

/-- The file extensions of the pattern
`\.(py|ts|tsx|js|jsx|md|json|yaml|yml|toml)\b`. -/
def extList : List (List Char) :=
  (["py", "ts", "tsx", "js", "jsx", "md", "json", "yaml", "yml",
    "toml"].map String.data)

/-- One alternative of the extension pattern at a position just after a dot:
the extension followed by a word boundary. -/
def extMatch (ext rest : List Char) : Bool :=
  ext.isPrefixOf rest &&
    (match rest.drop ext.length with
     | [] => true
     | c :: _ => ¬ isWordChar c)

/-- `re.search(r"\.(py|...)\b", q)`. -/
def hasFileExt : List Char → Bool
  | [] => false
  | c :: rest =>
    (c = '.' && extList.any (fun e => extMatch e rest)) || hasFileExt rest

example : hasFileExt "in utils.py implements".data = true := by decide
example : hasFileExt "the train.py loop?".data = true := by decide
example : hasFileExt "a.pyx file".data = false := by decide

/-- `_route_question(question)`. -/
def _route_question (question : String) : String :=
  let q := lowerStr (pyStrip question)
  if q = "" then "fallback"
  else
    let paper_score := paper_markers.countP (fun m => strContains q m)
    let code_score_markers := code_markers.countP (fun m => strContains q m)
    let code_score_syntax :=
      if strContains question "/" || strContains question "::" ||
          strContains question "(" ||
          strContains question (String.mk [Char.ofNat 96]) then
        code_score_markers + 1
      else code_score_markers
    let code_score :=
      if hasFileExt q.data then code_score_syntax + 2 else code_score_syntax
    if 2 ≤ paper_score ∧ code_score = 0 then "paper_only"
    else if 2 ≤ code_score ∧ paper_score = 0 then "code_only"
    else if 0 < paper_score ∧ 0 < code_score then "hybrid"
    else "fallback"

/-! ### `main.py`: evidence relevance filter and dedup -/

/-- `_evidence_text(item)`: the truthy textual fields joined by newlines. -/
def _evidence_text (item : JValue) : String :=
  String.intercalate "\n"
    ((["path", "name", "doc_id", "excerpt", "text_excerpt"]).filterMap
      (fun k =>
        let v := jGet item k .null
        if pyTruthy v then some (pyStr v) else none))

/-- The `_keep` predicate of `_filter_evidence_by_relevance`; `tokens` is the
deduplicated query token set.  The literal `0.12` is modelled as `12/100`. -/
def keepEvidence (tokens : List String) (item : JValue) : Bool :=
  let text := lowerStr (_evidence_text item)
  if text = "" then false
  else
    let overlap := tokens.countP (fun t => strContains text t)
    if tokens.length ≤ 3 then 1 ≤ overlap
    else
      decide (2 ≤ overlap) ||
        decide ((12 / 100 : ℚ) ≤ (overlap : ℚ) / ((max tokens.length 1 : ℕ) : ℚ))

/-- `_filter_evidence_by_relevance(evidence, query_text)`. -/
def _filter_evidence_by_relevance (evidence : List JValue)
    (query_text : String) : List JValue :=
  let tokens := dedupFS (_tokenize_query query_text)
  if tokens = [] then evidence
  else
    let kept := evidence.filter (keepEvidence tokens)
    if kept.isEmpty then evidence.take 3 else kept

/-- The dedup identity tuple
`(kind, path, line, name, paragraph_index, doc_id)` (missing fields as `""`). -/
def dedupKey (item : JValue) : List String :=
  ["kind", "path", "line", "name", "paragraph_index", "doc_id"].map
    (fun k => pyStr (jGet item k (.str "")))

/-- `_dedup_evidence(items)`. -/
def _dedup_evidence (items : List JValue) : List JValue :=
  (items.foldl
      (fun (acc : List (List String) × List JValue) item =>
        if dedupKey item ∈ acc.1 then acc
        else (acc.1 ++ [dedupKey item], acc.2 ++ [item]))
      ([], [])).2

/-- The final evidence stage of `_build_routed_evidence`
(`main.py` lines 1108–1112): dedup, relevance-filter, and
`insufficient = bool(not evidence)`. -/
def routedEvidenceFinal (evidence : List JValue) (query_text : String) :
    List JValue × Bool :=
  let e := _filter_evidence_by_relevance (_dedup_evidence evidence) query_text
  (e, e.isEmpty)

/-! ### Shared helper lemmas -/

theorem cleanPostings_nil {α : Type} [LinearOrderedField α] :
    cleanPostings ([] : List (String × List (String × α))) = [] := rfl

/-- The query guard: empty cleaned postings, empty `doc_len` or non-positive
`avgdl` short-circuit to an empty result. -/
theorem query_guard_empty {α : Type} [LinearOrderedField α]
    (idx : BM25QueryIndex α) (question : String) (top_k : Nat)
    (h : idx.postings = [] ∨ idx.doc_len = [] ∨ idx.avgdl ≤ 0) :
    query_bm25_index idx question top_k = [] := by
  unfold query_bm25_index
  by_cases ht : _tokenize_bm25 question = []
  · rw [if_pos ht]
  · rw [if_neg ht, if_pos]
    rcases h with h | h | h
    · exact Or.inl (by rw [h, cleanPostings_nil])
    · exact Or.inr (Or.inl h)
    · exact Or.inr (Or.inr h)

theorem exists_mem_setVal {β : Type} (m : List (String × β)) (k : String)
    (x : β) : (k, x) ∈ setVal m k x ∨ ∃ v, (k, v) ∈ setVal m k x := by
  right
  unfold setVal
  by_cases h : m.any (fun p => p.1 = k)
  · obtain ⟨p, hp, he⟩ := List.any_eq_true.mp h
    refine ⟨x, ?_⟩
    have : (if p.1 = k then (p.1, x) else p) ∈
        m.map (fun p => if p.1 = k then (p.1, x) else p) :=
      List.mem_map_of_mem _ hp
    rw [if_pos (of_decide_eq_true he), of_decide_eq_true he] at this
    rw [if_pos h]
    exact this
  · rw [if_neg h]
    exact ⟨x, by simp⟩

theorem mem_setVal_of_mem {β : Type} (m : List (String × β)) (k k' : String)
    (x v : β) (h : (k', v) ∈ m) : ∃ v', (k', v') ∈ setVal m k x := by
  unfold setVal
  by_cases hany : m.any (fun p => p.1 = k)
  · rw [if_pos hany]
    by_cases he : k' = k
    · subst he
      exact ⟨x, by
        have : (if (k', v).1 = k' then ((k', v).1, x) else (k', v)) ∈
            m.map (fun p => if p.1 = k' then (p.1, x) else p) :=
          List.mem_map_of_mem _ h
        simpa using this⟩
    · exact ⟨v, by
        have : (if (k', v).1 = k then ((k', v).1, x) else (k', v)) ∈
            m.map (fun p => if p.1 = k then (p.1, x) else p) :=
          List.mem_map_of_mem _ h
        simpa [he] using this⟩
  · rw [if_neg hany]
    exact ⟨v, List.mem_append_left _ h⟩

/-- Every key fed to the `doc_len` build loop ends up in the dict. -/
theorem mem_docLen_fold (l : List (String × List String)) :
    ∀ (acc : List (String × Nat)) (k : String),
      (k ∈ l.map Prod.fst ∨ ∃ v, (k, v) ∈ acc) →
      ∃ n, (k, n) ∈ l.foldl (fun m p => setVal m p.1 p.2.length) acc := by
  induction l with
  | nil =>
    intro acc k h
    rcases h with h | h
    · simp at h
    · exact h
  | cons p l ih =>
    intro acc k h
    rw [List.foldl_cons]
    apply ih
    rcases h with h | ⟨v, hv⟩
    · rw [List.map_cons, List.mem_cons] at h
      rcases h with he | hm
      · subst he
        right
        rcases exists_mem_setVal acc p.1 p.2.length with h1 | h1
        · exact ⟨p.2.length, h1⟩
        · exact h1
      · left; exact hm
    · right
      exact mem_setVal_of_mem acc p.1 k p.2.length v hv

/-! ### Claim theorems -/

/-- **C5, counterexample.**  The claim says every index build silently drops
documents whose `doc_id` is empty.  `build_bm25_index` does not: a single
document with `doc_id = ""` yields `doc_count = 1` (the claim demands `0`)
and a `doc_len` entry under the empty key. -/
theorem C5_counterexample :
    (build_bm25_index [⟨"", "hello world"⟩] (12 / 10) (3 / 4)
      (1 / 4)).doc_count = 1 ∧
    (build_bm25_index [⟨"", "hello world"⟩] (12 / 10) (3 / 4)
      (1 / 4)).doc_len = [("", 2)] := by
  exact ⟨rfl, rfl⟩

/-- **C5, amended.**  Only the vector build drops empty-id documents (its
`doc_ids` never contains `""`); the BM25 build keeps them: every document —
empty id included — contributes to `doc_count` (which always equals the
number of input documents) and owns an entry in `doc_len`. -/
theorem C5_amended (docs : List Doc) (k1 b eps : ℝ) :
    "" ∉ build_vector_index_doc_ids docs ∧
    (build_bm25_index docs k1 b eps).doc_count = docs.length ∧
    ∀ d ∈ docs, ∃ n, (d.doc_id, n) ∈ (build_bm25_index docs k1 b eps).doc_len := by
  refine ⟨?_, rfl, ?_⟩
  · intro hmem
    unfold build_vector_index_doc_ids at hmem
    obtain ⟨d, hd, he⟩ := List.mem_map.mp hmem
    have := (List.mem_filter.mp hd).2
    rw [he] at this
    simp at this
  · intro d hd
    show ∃ n, (d.doc_id, n) ∈ buildDocLen docs
    unfold buildDocLen
    apply mem_docLen_fold
    left
    unfold tokenizedDocs
    rw [List.map_map]
    exact List.mem_map_of_mem _ hd

/-- **C6.**  Queries against an index with empty postings, empty `doc_len`
or non-positive `avgdl` — in particular any index built from zero
documents — return the empty list (and, being total, raise no error). -/
theorem C6_empty_index_queries :
    (∀ {α : Type} [LinearOrderedField α] (idx : BM25QueryIndex α)
        (question : String) (top_k : Nat),
      idx.postings = [] ∨ idx.doc_len = [] ∨ idx.avgdl ≤ 0 →
      query_bm25_index idx question top_k = []) ∧
    (∀ (docs : List Doc) (k1 b eps : ℝ) (question : String) (top_k : Nat),
      (build_bm25_index docs k1 b eps).doc_count = 0 →
      query_bm25_index (toQueryIndex (build_bm25_index docs k1 b eps)) question
        top_k = []) := by
  constructor
  · intro α _ idx question top_k h
    exact query_guard_empty idx question top_k h
  · intro docs k1 b eps question top_k h
    have hd : docs = [] := List.length_eq_zero.mp h
    subst hd
    exact query_guard_empty _ question top_k (Or.inl rfl)

/-- **C6, witness.**  A concrete empty index over `ℚ`: the query returns `[]`. -/
theorem C6_witness :
    query_bm25_index (⟨[], [], [], 0, 0, 0⟩ : BM25QueryIndex ℚ) "cat" 5 = [] :=
  C6_empty_index_queries.1 ⟨[], [], [], 0, 0, 0⟩ "cat" 5 (Or.inl rfl)

/-- **C7.**  The router's documented behaviour on the four reference
questions, plus: any question that strips to the empty string routes to
`fallback`. -/
theorem C7_router :
    _route_question "What equation in section 3 proves convergence?" =
        "paper_only" ∧
    _route_question "Which function in utils.py implements caching?" =
        "code_only" ∧
    _route_question "How does the paper's algorithm map to the train.py loop?" =
        "hybrid" ∧
    (∀ s : String, pyStrip s = "" → _route_question s = "fallback") := by
  refine ⟨by decide, by decide, by decide, ?_⟩
  intro s h
  unfold _route_question
  rw [h]
  rfl

/-- **C7, witness.**  A whitespace-only question routes to `fallback`. -/
theorem C7_witness :
    pyStrip "   " = "" ∧ _route_question "   " = "fallback" :=
  ⟨by decide, C7_router.2.2.2 "   " (by decide)⟩

/-! ### Key-uniqueness of the df dict (for C2) -/

theorem map_fst_update {β : Type} (m : List (String × β))
    (f : String × β → β) (k : String) :
    (m.map (fun p => if p.1 = k then (p.1, f p) else p)).map Prod.fst =
      m.map Prod.fst := by
  induction m with
  | nil => rfl
  | cons p l ih =>
    simp only [List.map_cons, ih]
    by_cases hp : p.1 = k <;> simp [hp]

theorem keys_bumpCount (m : List (String × Nat)) (k : String) :
    (bumpCount m k).map Prod.fst = m.map Prod.fst ∨
      ((bumpCount m k).map Prod.fst = m.map Prod.fst ++ [k] ∧
        k ∉ m.map Prod.fst) := by
  unfold bumpCount
  by_cases h : m.any (fun p => p.1 = k)
  · left
    rw [if_pos h]
    exact map_fst_update m (fun p => p.2 + 1) k
  · right
    rw [if_neg h]
    refine ⟨by simp, ?_⟩
    intro hk
    obtain ⟨p, hp, he⟩ := List.mem_map.mp hk
    exact absurd (List.any_eq_true.mpr ⟨p, hp, by simp [he]⟩) h

theorem nodup_keys_bumpCount (m : List (String × Nat)) (k : String)
    (h : (m.map Prod.fst).Nodup) : ((bumpCount m k).map Prod.fst).Nodup := by
  rcases keys_bumpCount m k with he | ⟨he, hk⟩
  · rw [he]; exact h
  · rw [he]
    simp only [List.nodup_append, List.nodup_cons]
    exact ⟨h, by simp, by simpa using hk⟩

theorem nodup_keys_bumpFold (l : List String) :
    ∀ m : List (String × Nat), (m.map Prod.fst).Nodup →
      ((l.foldl bumpCount m).map Prod.fst).Nodup := by
  induction l with
  | nil => intro m h; exact h
  | cons a l ih =>
    intro m h
    rw [List.foldl_cons]
    exact ih _ (nodup_keys_bumpCount m a h)

/-- The keys of the `df` dict are pairwise distinct. -/
theorem buildDf_keys_nodup (docs : List Doc) :
    ((buildDf docs).map Prod.fst).Nodup := by
  unfold buildDf
  generalize tokenizedDocs docs = l
  have main : ∀ (ll : List (String × List String)) (m : List (String × Nat)),
      (m.map Prod.fst).Nodup →
      ((ll.foldl
          (fun m p => (docTf p.2).foldl (fun m q => bumpCount m q.1) m)
          m).map Prod.fst).Nodup := by
    intro ll
    induction ll with
    | nil => intro m h; exact h
    | cons p ll ih =>
      intro m h
      rw [List.foldl_cons]
      apply ih
      have hfuse : (docTf p.2).foldl (fun m q => bumpCount m q.1) m =
          ((docTf p.2).map Prod.fst).foldl bumpCount m := by
        rw [List.foldl_map]
      rw [hfuse]
      exact nodup_keys_bumpFold _ m h
  exact main l [] (by simp)

/-- First-match lookup in a dict with pairwise-distinct keys recovers any
member. -/
theorem lookupD_eq_of_mem {β : Type} {m : List (String × β)} {t : String}
    {v : β} (d : β) (hm : (t, v) ∈ m) (hnd : (m.map Prod.fst).Nodup) :
    lookupD m t d = v := by
  induction m with
  | nil => cases hm
  | cons p m ih =>
    rw [List.map_cons, List.nodup_cons] at hnd
    by_cases hp : p.1 = t
    · subst hp
      rcases List.mem_cons.mp hm with he | hm'
      · unfold lookupD
        rw [List.find?_cons_of_pos _ (by simp)]
        rw [← he]
      · exact absurd (List.mem_map_of_mem Prod.fst hm') hnd.1
    · rcases List.mem_cons.mp hm with he | hm'
      · exact absurd (congrArg Prod.fst he.symm) hp
      · unfold lookupD
        rw [List.find?_cons_of_neg _ (by simp [hp])]
        exact ih hm' hnd.2

theorem keys_map_preserve {β γ : Type} (l : List (String × β))
    (g : String × β → String × γ) (hg : ∀ p, (g p).1 = p.1) :
    (l.map g).map Prod.fst = l.map Prod.fst := by
  induction l with
  | nil => rfl
  | cons p l ih => simp [hg p, ih]

theorem keys_rawIdfList (docs : List Doc) :
    (rawIdfList docs).map Prod.fst = (buildDf docs).map Prod.fst :=
  keys_map_preserve _ _ (fun _ => rfl)

/-- **C2.**  For every document set and parameters, the stored idf of a term
with document frequency `df` is the raw value
`ln((doc_count - df + 0.5) / (df + 0.5))`, except that when the mean of the
raw idf values is positive, `epsilon` is positive and the raw value is
negative, the stored value is `epsilon * mean` — the raw negative value is
never stored. -/
theorem C2_idf_formula_and_floor (docs : List Doc) (k1 b eps : ℝ) (t : String)
    (dft : Nat) (hmem : (t, dft) ∈ buildDf docs) :
    lookupD (build_bm25_index docs k1 b eps).idf t 0 =
      if 0 < avgIdf docs ∧ 0 < eps ∧ rawIdfVal docs.length dft < 0 then
        eps * avgIdf docs
      else rawIdfVal docs.length dft := by
  have hnd := buildDf_keys_nodup docs
  have hndr : ((rawIdfList docs).map Prod.fst).Nodup := by
    rw [keys_rawIdfList]; exact hnd
  have hmemr : (t, rawIdfVal docs.length dft) ∈ rawIdfList docs :=
    List.mem_map_of_mem _ hmem
  show lookupD (idfFinal docs eps) t 0 = _
  unfold idfFinal
  by_cases hs : 0 < avgIdf docs ∧ 0 < eps
  · rw [if_pos hs]
    set g : String × ℝ → String × ℝ :=
      fun p => if p.2 < 0 then (p.1, eps * avgIdf docs) else p with hg
    have hmem2 : (t,
        if rawIdfVal docs.length dft < 0 then eps * avgIdf docs
        else rawIdfVal docs.length dft) ∈ (rawIdfList docs).map g := by
      have hh := List.mem_map_of_mem g hmemr
      by_cases hneg : rawIdfVal docs.length dft < 0
      · simpa [hg, hneg] using hh
      · simpa [hg, hneg] using hh
    have hnd2 : (((rawIdfList docs).map g).map Prod.fst).Nodup := by
      rw [keys_map_preserve _ g (fun p => by
        by_cases hp : p.2 < 0 <;> simp [hg, hp])]
      exact hndr
    rw [lookupD_eq_of_mem 0 hmem2 hnd2]
    by_cases hneg : rawIdfVal docs.length dft < 0
    · rw [if_pos hneg, if_pos ⟨hs.1, hs.2, hneg⟩]
    · rw [if_neg hneg, if_neg (fun hc => hneg hc.2.2)]
  · rw [if_neg hs]
    rw [lookupD_eq_of_mem 0 hmemr hndr]
    rw [if_neg (fun hc => hs ⟨hc.1, hc.2.1⟩)]

/-- **C2, witness.**  In the two-document corpus from the spec's end-to-end
example, `"cat"` has document frequency 1, and its stored idf matches the
formula. -/
theorem C2_witness :
    (("cat", 1) ∈ buildDf [⟨"doc1", "cat dog cat"⟩, ⟨"doc2", "dog dog fish"⟩]) ∧
    lookupD
        (build_bm25_index [⟨"doc1", "cat dog cat"⟩, ⟨"doc2", "dog dog fish"⟩]
          (12 / 10) (3 / 4) (1 / 4)).idf "cat" 0 =
      if 0 < avgIdf [⟨"doc1", "cat dog cat"⟩, ⟨"doc2", "dog dog fish"⟩] ∧
          0 < (1 / 4 : ℝ) ∧
          rawIdfVal
            [Doc.mk "doc1" "cat dog cat", Doc.mk "doc2" "dog dog fish"].length
            1 < 0 then
        (1 / 4 : ℝ) *
          avgIdf [⟨"doc1", "cat dog cat"⟩, ⟨"doc2", "dog dog fish"⟩]
      else
        rawIdfVal
          [Doc.mk "doc1" "cat dog cat", Doc.mk "doc2" "dog dog fish"].length
          1 :=
  ⟨by decide,
    C2_idf_formula_and_floor _ (12 / 10) (3 / 4) (1 / 4) "cat" 1 (by decide)⟩

/-! ### The spec's two-document BM25 example (C1) -/

/-- The two documents of the spec's end-to-end BM25 example. -/
def specDocs : List Doc := [⟨"doc1", "cat dog cat"⟩, ⟨"doc2", "dog dog fish"⟩]

theorem specDocs_df : buildDf specDocs = [("cat", 1), ("dog", 2), ("fish", 1)] := by
  decide

theorem specDocs_doc_len : buildDocLen specDocs = [("doc1", 3), ("doc2", 3)] := by
  decide

theorem specDocs_postings : buildPostings specDocs =
    [("cat", [("doc1", 2)]), ("dog", [("doc1", 1), ("doc2", 2)]),
     ("fish", [("doc2", 1)])] := by decide

/-- `idf("cat") = ln(1.5/1.5) = ln 1 = 0`, `idf("dog") = ln(0.5/2.5) = ln(1/5)`,
`idf("fish") = 0`. -/
theorem specDocs_rawIdf : rawIdfList specDocs =
    [("cat", 0), ("dog", Real.log (1 / 5)), ("fish", 0)] := by
  have hlen : specDocs.length = 2 := rfl
  rw [rawIdfList, specDocs_df, hlen]
  norm_num [rawIdfVal, Real.log_one]

theorem specDocs_avgIdf : avgIdf specDocs = Real.log (1 / 5) / 3 := by
  rw [avgIdf, specDocs_rawIdf]
  norm_num [sumValsR]

/-- The mean idf of the example corpus is negative, so the smoothing pass
leaves the idf dict unchanged. -/
theorem specDocs_idfFinal : idfFinal specDocs (1 / 4) = rawIdfList specDocs := by
  rw [idfFinal, if_neg]
  rintro ⟨h, _⟩
  rw [specDocs_avgIdf] at h
  have hneg : Real.log (1 / 5) < 0 := Real.log_neg (by norm_num) (by norm_num)
  linarith

/-- Querying `"cat"` over the example corpus returns nothing: the term's idf
is exactly `0` and `query_bm25_index` skips terms with `idf <= 0`. -/
theorem specDocs_query_cat_empty :
    query_bm25_index
      (toQueryIndex (build_bm25_index specDocs (12 / 10) (3 / 4) (1 / 4)))
      "cat" 5 = [] := by
  have h_tok : _tokenize_bm25 "cat" = ["cat"] := rfl
  have h_sum : sumValsNat (buildDocLen specDocs) = 6 := by decide
  unfold query_bm25_index toQueryIndex build_bm25_index
  rw [h_tok]
  norm_num [specDocs_idfFinal, specDocs_rawIdf, specDocs_postings,
    specDocs_doc_len, h_sum, cleanPostings, lookupD, scoreToken, sortDescBy,
    dedupFS]

/-- **C1, counterexample.**  The claim says that with the default parameters,
querying `"cat"` ranks `doc1` strictly above `doc2`.  In fact `doc1` does not
appear in the result at all: with two documents and `df("cat") = 1` the idf
of `"cat"` is `ln((2 - 1 + 0.5)/(1 + 0.5)) = ln 1 = 0`, and the query loop
skips every term whose idf is not strictly positive. -/
theorem C1_counterexample :
    "doc1" ∉
      (query_bm25_index
          (toQueryIndex (build_bm25_index specDocs (12 / 10) (3 / 4) (1 / 4)))
          "cat" 5).map Prod.fst := by
  rw [specDocs_query_cat_empty]
  simp

/-- **C1, amended.**  Building the index over `doc1 = "cat dog cat"`,
`doc2 = "dog dog fish"` with the default parameters and querying `"cat"`
returns the empty ranking (so neither document is ranked above the other). -/
theorem C1_amended :
    query_bm25_index
      (toQueryIndex (build_bm25_index specDocs (12 / 10) (3 / 4) (1 / 4)))
      "cat" 5 = [] :=
  specDocs_query_cat_empty

/-! ### Score positivity (C10) -/

theorem addTo_pos {α : Type} [LinearOrderedField α] (sc : List (String × α))
    (k : String) (v : α) (hv : 0 < v) (h : ∀ p ∈ sc, 0 < p.2) :
    ∀ p ∈ addTo sc k v, 0 < p.2 := by
  unfold addTo
  by_cases hany : sc.any (fun p => p.1 = k)
  · rw [if_pos hany]
    intro p hp
    obtain ⟨q, hq, he⟩ := List.mem_map.mp hp
    by_cases hqk : q.1 = k
    · rw [if_pos hqk] at he
      rw [← he]
      exact add_pos (h q hq) hv
    · rw [if_neg hqk] at he
      rw [← he]
      exact h q hq
  · rw [if_neg hany]
    intro p hp
    rcases List.mem_append.mp hp with hp | hp
    · exact h p hp
    · rw [List.mem_singleton.mp hp]
      exact hv

theorem scorePosting_pos {α : Type} [LinearOrderedField α]
    (idx : BM25QueryIndex α) (tIdf : α) (sc : List (String × α))
    (q : String × α) (hidf : 0 < tIdf) (hk1 : 0 < idx.k1 + 1)
    (h : ∀ p ∈ sc, 0 < p.2) : ∀ p ∈ scorePosting idx tIdf sc q, 0 < p.2 := by
  unfold scorePosting
  by_cases h1 : lookupD idx.doc_len q.1 0 ≤ 0
  · rw [if_pos h1]; exact h
  · rw [if_neg h1]
    by_cases h2 : q.2 ≤ 0
    · rw [if_pos h2]; exact h
    · rw [if_neg h2]
      by_cases h3 : q.2 + idx.k1 * (1 - idx.b + idx.b *
          (lookupD idx.doc_len q.1 0 / idx.avgdl)) ≤ 0
      · rw [if_pos h3]; exact h
      · rw [if_neg h3]
        apply addTo_pos _ _ _ _ h
        have htf : 0 < q.2 := lt_of_not_le h2
        have hden : 0 < q.2 + idx.k1 * (1 - idx.b + idx.b *
            (lookupD idx.doc_len q.1 0 / idx.avgdl)) := lt_of_not_le h3
        exact div_pos (mul_pos hidf (mul_pos htf hk1)) hden

theorem scorePosting_fold_pos {α : Type} [LinearOrderedField α]
    (idx : BM25QueryIndex α) (tIdf : α) (l : List (String × α))
    (hidf : 0 < tIdf) (hk1 : 0 < idx.k1 + 1) :
    ∀ sc : List (String × α), (∀ p ∈ sc, 0 < p.2) →
      ∀ p ∈ l.foldl (scorePosting idx tIdf) sc, 0 < p.2 := by
  induction l with
  | nil => intro sc h; exact h
  | cons q l ih =>
    intro sc h
    rw [List.foldl_cons]
    exact ih _ (scorePosting_pos idx tIdf sc q hidf hk1 h)

theorem scoreToken_pos {α : Type} [LinearOrderedField α]
    (idx : BM25QueryIndex α) (postings : List (String × List (String × α)))
    (sc : List (String × α)) (token : String) (hk1 : 0 < idx.k1 + 1)
    (h : ∀ p ∈ sc, 0 < p.2) :
    ∀ p ∈ scoreToken idx postings sc token, 0 < p.2 := by
  unfold scoreToken
  by_cases h1 : lookupD idx.idf token 0 ≤ 0
  · rw [if_pos h1]; exact h
  · rw [if_neg h1]
    exact scorePosting_fold_pos idx _ _ (lt_of_not_le h1) hk1 sc h

theorem scoreToken_fold_pos {α : Type} [LinearOrderedField α]
    (idx : BM25QueryIndex α) (postings : List (String × List (String × α)))
    (l : List String) (hk1 : 0 < idx.k1 + 1) :
    ∀ sc : List (String × α), (∀ p ∈ sc, 0 < p.2) →
      ∀ p ∈ l.foldl (scoreToken idx postings) sc, 0 < p.2 := by
  induction l with
  | nil => intro sc h; exact h
  | cons t l ih =>
    intro sc h
    rw [List.foldl_cons]
    exact ih _ (scoreToken_pos idx postings sc t hk1 h)

/-- **C10, amended.**  Whenever the index's `k1` exceeds `-1` (as with the
default `k1 = 1.2`), every `(doc_id, score)` pair returned by the query has a
strictly positive score: entries accumulate only from query terms with
positive idf, positive term frequency, positive document length and positive
denominator. -/
theorem C10_positive_scores {α : Type} [LinearOrderedField α]
    (idx : BM25QueryIndex α) (question : String) (top_k : Nat)
    (hk1 : -1 < idx.k1) :
    ∀ p ∈ query_bm25_index idx question top_k, 0 < p.2 := by
  intro p hp
  unfold query_bm25_index at hp
  by_cases ht : _tokenize_bm25 question = []
  · rw [if_pos ht] at hp
    cases hp
  · rw [if_neg ht] at hp
    by_cases hg : cleanPostings idx.postings = [] ∨ idx.doc_len = [] ∨
        idx.avgdl ≤ 0
    · rw [if_pos hg] at hp
      cases hp
    · rw [if_neg hg] at hp
      have hmem := (mem_sortDescBy Prod.snd _ p).mp (List.take_subset _ _ hp)
      exact scoreToken_fold_pos idx _ _ (by linarith) [] (by simp) p hmem

/-- An index whose `k1` is `-2`: scores can come out negative. -/
def bm25NegIdx : BM25QueryIndex ℚ :=
  ⟨[("cat", 1)], [("cat", [("d", 3)])], [("d", 1)], 1, -2, 3 / 4⟩

/-- A well-behaved index with `k1 = 1.2`. -/
def bm25PosIdx : BM25QueryIndex ℚ :=
  ⟨[("cat", 1)], [("cat", [("d", 3)])], [("d", 1)], 1, 6 / 5, 3 / 4⟩

/-- **C10, counterexample.**  Over an index with `k1 = -2` (the query reads
`k1` from the loaded index dict and `build_bm25_index` accepts any `k1`),
querying `"cat"` returns the pair `("d", -3)` — a non-positive score, against
the claim's "each returned pair has a strictly positive score". -/
theorem C10_counterexample :
    ("d", (-3 : ℚ)) ∈ query_bm25_index bm25NegIdx "cat" 5 ∧
      ¬ (0 : ℚ) < -3 := by
  constructor
  · have : query_bm25_index bm25NegIdx "cat" 5 = [("d", -3)] := by
      have h1 : _tokenize_bm25 "cat" = ["cat"] := rfl
      unfold query_bm25_index
      rw [h1]
      norm_num [bm25NegIdx, cleanPostings, List.filter, scoreToken,
        scorePosting, lookupD, List.find?, addTo, List.any, sortDescBy,
        insertDescBy, dedupFS]
    rw [this]
    simp
  · norm_num

/-- **C10, witness.**  The amended theorem applied to a concrete index with
`k1 = 1.2 > -1`. -/
theorem C10_witness :
    (-1 : ℚ) < bm25PosIdx.k1 ∧
      ∀ p ∈ query_bm25_index bm25PosIdx "cat" 5, 0 < p.2 :=
  ⟨by norm_num [bm25PosIdx],
    C10_positive_scores bm25PosIdx "cat" 5 (by norm_num [bm25PosIdx])⟩


/-! ### Alignment confidence (C8) -/

theorem pyInt_natCast (n : Nat) : pyInt ((n : ℚ)) = (n : ℤ) := by
  unfold pyInt
  rw [if_pos (by positivity)]
  exact Int.floor_natCast n

theorem score_value_scoredOfSymbol (entry : JValue) (s : Nat)
    (m : List String) : _score_value (scoredOfSymbol entry s m) = (s : ℤ) := by
  unfold _score_value scoredOfSymbol jGet
  simp only [List.find?]
  norm_num
  exact pyInt_natCast s

theorem score_value_scoredOfFile (entry : JValue) (s : Nat)
    (m : List String) : _score_value (scoredOfFile entry s m) = (s : ℤ) := by
  unfold _score_value scoredOfFile jGet
  simp only [List.find?]
  norm_num
  exact pyInt_natCast s

/-- Every entry of the `scored` list carries a score of at least 1 (zero
scores are filtered out, and scores are match counts). -/
theorem scoredList_score_ge_one (ts : List String) (cands : List JValue)
    (inv : List (String × List Nat)) (isSym : Bool) :
    ∀ e ∈ scoredList ts cands inv isSym, 1 ≤ _score_value e := by
  intro e he
  unfold scoredList at he
  obtain ⟨entry, _, he2⟩ := List.mem_filterMap.mp he
  by_cases h0 : (_score_tokens ts (tokensOfCand entry)).1 = 0
  · rw [if_pos h0] at he2
    cases he2
  · rw [if_neg h0] at he2
    have h1 : 1 ≤ ((_score_tokens ts (tokensOfCand entry)).1 : ℤ) := by
      exact_mod_cast Nat.one_le_iff_ne_zero.mpr h0
    by_cases hsym : isSym = true
    · rw [if_pos hsym, Option.some_inj] at he2
      rw [← he2, score_value_scoredOfSymbol]
      exact h1
    · rw [if_neg hsym, Option.some_inj] at he2
      rw [← he2, score_value_scoredOfFile]
      exact h1

/-- **C8.**  For every paragraph token list with at least one token and every
candidate set (with the inverted indexes built from it, as in
`build_alignment_map`), the confidence equals
`min(best_match_score / distinct_token_count, 1)` where the best score is the
first (maximal) match score, lies in `[0, 1]`, and is `0` exactly when the
match list is empty. -/
theorem C8_confidence (tokens : List String) (symbols files : List JValue)
    (h : ¬ tokens = []) :
    (_rank_candidates tokens symbols files (_build_inverted_index symbols)
          (_build_inverted_index files)).2 =
        min
          (((match
                  (_rank_candidates tokens symbols files
                      (_build_inverted_index symbols)
                      (_build_inverted_index files)).1 with
              | [] => (0 : ℤ)
              | m :: _ => _score_value m) : ℚ) /
            ((dedupFS tokens).length : ℚ))
          1 ∧
      0 ≤ (_rank_candidates tokens symbols files (_build_inverted_index symbols)
          (_build_inverted_index files)).2 ∧
      (_rank_candidates tokens symbols files (_build_inverted_index symbols)
          (_build_inverted_index files)).2 ≤ 1 ∧
      ((_rank_candidates tokens symbols files (_build_inverted_index symbols)
            (_build_inverted_index files)).2 = 0 ↔
        (_rank_candidates tokens symbols files (_build_inverted_index symbols)
            (_build_inverted_index files)).1 = []) := by
  have hne : dedupFS tokens ≠ [] := dedupFS_ne_nil tokens h
  have hlen : 1 ≤ (dedupFS tokens).length := by
    cases he : dedupFS tokens with
    | nil => exact absurd he hne
    | cons a l => simp
  have hmax : max (dedupFS tokens).length 1 = (dedupFS tokens).length :=
    Nat.max_eq_left hlen
  unfold _rank_candidates
  rw [if_neg h]
  simp only
  set scored :=
    scoredList (dedupFS tokens) symbols (_build_inverted_index symbols) true ++
      scoredList (dedupFS tokens) files (_build_inverted_index files) false
    with hscored
  have hsc : ∀ e ∈ scored, 1 ≤ _score_value e := by
    intro e he
    rcases List.mem_append.mp he with he | he
    · exact scoredList_score_ge_one _ _ _ _ e he
    · exact scoredList_score_ge_one _ _ _ _ e he
  have htopmem : ∀ e ∈ (sortDescBy _score_value scored).take 5,
      1 ≤ _score_value e := by
    intro e he
    exact hsc e ((mem_sortDescBy _score_value scored e).mp
      (List.take_subset _ _ he))
  rw [hmax]
  cases hcase : (sortDescBy _score_value scored).take 5 with
  | nil =>
    refine ⟨by norm_num, by norm_num, ?_, ?_⟩
    · norm_num
    · norm_num
  | cons m rest =>
    have hm : 1 ≤ _score_value m := htopmem m (by rw [hcase]; simp)
    have hpos : (0 : ℚ) <
        ((_score_value m : ℚ)) / ((dedupFS tokens).length : ℚ) := by
      apply div_pos
      · exact_mod_cast lt_of_lt_of_le one_pos hm
      · exact_mod_cast hlen
    refine ⟨by norm_num, ?_, min_le_right _ _, ?_⟩
    · exact le_min (le_of_lt hpos) (le_of_lt one_pos)
    · constructor
      · intro hzero
        exfalso
        have hlt : (0 : ℚ) <
            min ((_score_value m : ℚ) / ((dedupFS tokens).length : ℚ)) 1 :=
          lt_min hpos one_pos
        rw [hzero] at hlt
        exact lt_irrefl 0 hlt
      · intro hnil
        cases hnil

/-- **C8, witness.**  The confidence properties instantiated at a one-token
paragraph and empty candidate pools. -/
theorem C8_witness :
    ¬ (["caching"] : List String) = [] ∧
      ((_rank_candidates ["caching"] [] [] (_build_inverted_index [])
            (_build_inverted_index [])).2 =
          min
            (((match
                    (_rank_candidates ["caching"] [] []
                        (_build_inverted_index [])
                        (_build_inverted_index [])).1 with
                | [] => (0 : ℤ)
                | m :: _ => _score_value m) : ℚ) /
              ((dedupFS ["caching"]).length : ℚ))
            1 ∧
        0 ≤ (_rank_candidates ["caching"] [] [] (_build_inverted_index [])
            (_build_inverted_index [])).2 ∧
        (_rank_candidates ["caching"] [] [] (_build_inverted_index [])
            (_build_inverted_index [])).2 ≤ 1 ∧
        ((_rank_candidates ["caching"] [] [] (_build_inverted_index [])
              (_build_inverted_index [])).2 = 0 ↔
          (_rank_candidates ["caching"] [] [] (_build_inverted_index [])
              (_build_inverted_index [])).1 = [])) :=
  ⟨by decide, C8_confidence ["caching"] [] [] (by decide)⟩

/-! ### Serialization shape of the alignment map (C3, C4) -/

/-- The string field `k` of a JSON dict, when it holds a string. -/
def strField (j : JValue) (k : String) : Option String :=
  match jGet j k .null with
  | .str s => some s
  | _ => none

/-- Does field `k` hold a JSON number? -/
def isNumField (j : JValue) (k : String) : Bool :=
  match jGet j k .null with
  | .num _ => true
  | _ => false

/-- The `results` list of a serialized alignment map. -/
def resultsOf (j : JValue) : List JValue :=
  match jGet j "results" .null with
  | .arr l => l
  | _ => []

/-- The `matches` list of a serialized alignment result. -/
def matchesOf (r : JValue) : List JValue :=
  match jGet r "matches" .null with
  | .arr l => l
  | _ => []

/-- The payload of a successful build (`.null` on error). -/
def okOr (e : Except PyErr JValue) (d : JValue) : JValue :=
  match e with
  | .ok j => j
  | .error _ => d

/-- `len(•)` succeeds exactly on strings, lists and dicts. -/
def lenOk : JValue → Bool
  | .str _ => true
  | .arr _ => true
  | .obj _ => true
  | _ => false

/-- The serialized shape of one alignment result: `paragraph_index`, `page`
and `confidence` are strings; every match's `score` is a number. -/
def resultShape (r : JValue) : Prop :=
  (∃ s, strField r "paragraph_index" = some s) ∧
  (∃ s, strField r "page" = some s) ∧
  (∃ s, strField r "confidence" = some s) ∧
  ∀ mt ∈ matchesOf r, isNumField mt "score" = true

theorem scoredList_isNumField (ts : List String) (cands : List JValue)
    (inv : List (String × List Nat)) (isSym : Bool) :
    ∀ e ∈ scoredList ts cands inv isSym, isNumField e "score" = true := by
  intro e he
  unfold scoredList at he
  obtain ⟨entry, _, he2⟩ := List.mem_filterMap.mp he
  by_cases h0 : (_score_tokens ts (tokensOfCand entry)).1 = 0
  · rw [if_pos h0] at he2
    cases he2
  · rw [if_neg h0] at he2
    by_cases hsym : isSym = true
    · rw [if_pos hsym, Option.some_inj] at he2
      rw [← he2]
      rfl
    · rw [if_neg hsym, Option.some_inj] at he2
      rw [← he2]
      rfl

theorem rank_matches_isNumField (tokens : List String)
    (symbols files : List JValue) (si fi : List (String × List Nat)) :
    ∀ mt ∈ (_rank_candidates tokens symbols files si fi).1,
      isNumField mt "score" = true := by
  intro mt hmt
  unfold _rank_candidates at hmt
  have hmem : mt ∈ (sortDescBy _score_value
      (scoredList (dedupFS tokens) symbols si true ++
        scoredList (dedupFS tokens) files fi false)).take 5 := by
    by_cases h : tokens = []
    · rw [if_pos h] at hmt
      exact hmt
    · rw [if_neg h] at hmt
      exact hmt
  have := (mem_sortDescBy _score_value _ mt).mp (List.take_subset _ _ hmem)
  rcases List.mem_append.mp this with h | h
  · exact scoredList_isNumField _ _ _ _ mt h
  · exact scoredList_isNumField _ _ _ _ mt h

theorem alignStep_shape (sc fc : List JValue)
    (si fi : List (String × List Nat)) (res : List JValue) (p : Nat × JValue)
    (h : ∀ r ∈ res, resultShape r) :
    ∀ r ∈ alignStep sc fc si fi res p, resultShape r := by
  intro r hr
  unfold alignStep at hr
  cases hp : p.2 with
  | obj fs =>
    rw [hp] at hr
    simp only at hr
    by_cases ht : _tokenize_align (pyStr (jGet (.obj fs) "text" (.str ""))) = []
    · rw [if_pos ht] at hr
      exact h r hr
    · rw [if_neg ht] at hr
      rcases List.mem_append.mp hr with hr | hr
      · exact h r hr
      · rw [List.mem_singleton.mp hr]
        refine ⟨⟨_, rfl⟩, ⟨_, rfl⟩, ⟨_, rfl⟩, ?_⟩
        intro mt hmt
        exact rank_matches_isNumField _ sc fc si fi mt hmt
  | null => rw [hp] at hr; exact h r hr
  | bool b => rw [hp] at hr; exact h r hr
  | num q => rw [hp] at hr; exact h r hr
  | str s => rw [hp] at hr; exact h r hr
  | arr l => rw [hp] at hr; exact h r hr

theorem alignResults_shape (paper : JValue) (sc fc : List JValue)
    (si fi : List (String × List Nat)) :
    ∀ r ∈ alignResults paper sc fc si fi, resultShape r := by
  unfold alignResults
  generalize (rawParagraphs paper).enum = l
  have main : ∀ (l : List (Nat × JValue)) (acc : List JValue),
      (∀ r ∈ acc, resultShape r) →
      ∀ r ∈ l.foldl (alignStep sc fc si fi) acc, resultShape r := by
    intro l
    induction l with
    | nil => intro acc h; exact h
    | cons p l ih =>
      intro acc h
      rw [List.foldl_cons]
      exact ih _ (alignStep_shape sc fc si fi acc p h)
  exact main l [] (by simp)

theorem alignCore_fields (paper symbols text_index : JValue)
    (h : (alignCore paper symbols text_index).isOk = true) :
    (∃ s, strField (okOr (alignCore paper symbols text_index) .null)
        "paragraph_count" = some s) ∧
    (∃ s, strField (okOr (alignCore paper symbols text_index) .null)
        "match_count" = some s) ∧
    ∀ r ∈ resultsOf (okOr (alignCore paper symbols text_index) .null),
      resultShape r := by
  unfold alignCore at h ⊢
  cases hd : dictGetE paper "paragraphs" (.arr []) with
  | error e =>
    simp only [hd] at h
    exact Bool.noConfusion (show false = true from h)
  | ok praw =>
    cases hn : pyLen praw with
    | error e =>
      simp only [hd, hn] at h
      exact Bool.noConfusion (show false = true from h)
    | ok n =>
      simp only [hd, hn]
      refine ⟨⟨_, rfl⟩, ⟨_, rfl⟩, ?_⟩
      intro r hr
      exact alignResults_shape paper _ _ _ _ r hr

/-- **C3, amended.**  Whenever the alignment build succeeds, the map's
`paragraph_count` and `match_count` are serialized as strings, and each
result's `paragraph_index`, `page` and `confidence` are strings (the
confidence as a 3-decimal rendering); only each match's `score` is a JSON
number. -/
theorem C3_string_serialization (pF sF tF : FileInput)
    (h : (build_alignment_map pF sF tF).isOk = true) :
    (∃ s, strField (okOr (build_alignment_map pF sF tF) .null)
        "paragraph_count" = some s) ∧
    (∃ s, strField (okOr (build_alignment_map pF sF tF) .null)
        "match_count" = some s) ∧
    ∀ r ∈ resultsOf (okOr (build_alignment_map pF sF tF) .null),
      resultShape r := by
  cases pF with
  | missing =>
    exact Bool.noConfusion (show false = true from h)
  | unparseable =>
    exact Bool.noConfusion (show false = true from h)
  | content jp =>
    cases sF with
    | unparseable => exact Bool.noConfusion (show false = true from h)
    | missing =>
      cases tF with
      | unparseable => exact Bool.noConfusion (show false = true from h)
      | missing => exact alignCore_fields jp (.obj []) (.obj []) h
      | content jt => exact alignCore_fields jp (.obj []) jt h
    | content js =>
      cases tF with
      | unparseable => exact Bool.noConfusion (show false = true from h)
      | missing => exact alignCore_fields jp js (.obj []) h
      | content jt => exact alignCore_fields jp js jt h

/-- The one-paragraph paper used for the concrete serialization facts. -/
def tinyPaper : JValue :=
  .obj [("paragraphs", .arr [.obj [("page", .str "1"), ("text", .str "a b")]])]

/-- **C3, counterexample.**  The claim says `paragraph_count` (among others)
is written as a concrete JSON number.  On a one-paragraph paper it is the
string `"1"`, not a number. -/
theorem C3_counterexample :
    build_alignment_map (.content tinyPaper) .missing .missing =
        .ok (.obj
          [("paragraph_count", .str "1"), ("match_count", .str "0"),
           ("results", .arr [])]) ∧
      isNumField
          (okOr (build_alignment_map (.content tinyPaper) .missing .missing)
            .null)
          "paragraph_count" = false ∧
      strField
          (okOr (build_alignment_map (.content tinyPaper) .missing .missing)
            .null)
          "paragraph_count" = some "1" :=
  ⟨rfl, rfl, rfl⟩

/-- **C3, witness.**  The amended statement instantiated at the concrete
one-paragraph paper. -/
theorem C3_witness :
    (build_alignment_map (.content tinyPaper) .missing .missing).isOk = true ∧
      ((∃ s, strField
          (okOr (build_alignment_map (.content tinyPaper) .missing .missing)
            .null) "paragraph_count" = some s) ∧
        (∃ s, strField
            (okOr (build_alignment_map (.content tinyPaper) .missing .missing)
              .null) "match_count" = some s) ∧
        ∀ r ∈ resultsOf
            (okOr (build_alignment_map (.content tinyPaper) .missing .missing)
              .null),
          resultShape r) :=
  ⟨rfl, C3_string_serialization (.content tinyPaper) .missing .missing rfl⟩

theorem pyLen_isOk (j : JValue) (h : lenOk j = true) : ∃ n, pyLen j = .ok n := by
  cases j <;> first
    | exact ⟨_, rfl⟩
    | exact Bool.noConfusion h

/-- **C4, amended.**  Only the symbol-table and text-index inputs tolerate a
missing file (loaded as `{}`); a missing paper file raises
`FileNotFoundError`, and unparseable JSON in any of the three inputs raises a
decode error.  When the paper input parses to a dict whose `paragraphs` value
(defaulting to `[]`) has a length and the other two inputs are absent or
parseable, the build completes without raising. -/
theorem C4_graceful_loading :
    (∀ sF tF : FileInput,
        build_alignment_map .missing sF tF = .error .fileNotFound) ∧
      (∀ sF tF : FileInput,
        build_alignment_map .unparseable sF tF = .error .jsonDecode) ∧
      (∀ (jp : JValue) (tF : FileInput),
        build_alignment_map (.content jp) .unparseable tF =
          .error .jsonDecode) ∧
      (∀ (jp : JValue) (sF : FileInput), sF.bad = false →
        build_alignment_map (.content jp) sF .unparseable =
          .error .jsonDecode) ∧
      (∀ (fields : List (String × JValue)) (sF tF : FileInput),
        sF.bad = false → tF.bad = false →
        lenOk (jGet (.obj fields) "paragraphs" (.arr [])) = true →
        (build_alignment_map (.content (.obj fields)) sF tF).isOk = true) := by
  refine ⟨fun sF tF => rfl, fun sF tF => rfl, fun jp tF => rfl, ?_, ?_⟩
  · intro jp sF hs
    cases sF with
    | missing => rfl
    | unparseable => exact Bool.noConfusion hs
    | content js => rfl
  · intro fields sF tF hs ht hlen
    obtain ⟨n, hn⟩ := pyLen_isOk _ hlen
    have hcore : ∀ js jt : JValue,
        (alignCore (.obj fields) js jt).isOk = true := by
      intro js jt
      unfold alignCore
      have hd : dictGetE (.obj fields) "paragraphs" (.arr []) =
          .ok (jGet (.obj fields) "paragraphs" (.arr [])) := rfl
      simp only [hd, hn]
      rfl
    cases sF with
    | unparseable => exact Bool.noConfusion hs
    | missing =>
      cases tF with
      | unparseable => exact Bool.noConfusion ht
      | missing => exact hcore (.obj []) (.obj [])
      | content jt => exact hcore (.obj []) jt
    | content js =>
      cases tF with
      | unparseable => exact Bool.noConfusion ht
      | missing => exact hcore js (.obj [])
      | content jt => exact hcore js jt

/-- **C4, counterexample.**  The claim says a missing input file is treated
as an empty structure and the build completes.  A missing *paper* file makes
`build_alignment_map` raise `FileNotFoundError` even when the other two
inputs are present and valid. -/
theorem C4_counterexample :
    build_alignment_map .missing (.content (.obj [])) (.content (.obj [])) =
      .error .fileNotFound := rfl

/-- **C4, witness.**  The graceful-completion clause instantiated at an empty
paper dict and two missing side inputs. -/
theorem C4_witness :
    FileInput.bad .missing = false ∧
      lenOk (jGet (.obj []) "paragraphs" (.arr [])) = true ∧
      (build_alignment_map (.content (.obj [])) .missing .missing).isOk =
        true :=
  ⟨rfl, rfl, C4_graceful_loading.2.2.2.2 [] .missing .missing rfl rfl rfl⟩

/-! ### Evidence relevance filter (C9) -/

/-- The claim's keep-condition, as the spec words it: keep an item when it
shares at least one query token (short query, at most 3 tokens), or at least
2 tokens or at least a 12% overlap ratio (longer query). -/
def keepClaim (tokens : List String) (item : JValue) : Bool :=
  let text := lowerStr (_evidence_text item)
  let overlap := tokens.countP (fun t => strContains text t)
  if tokens.length ≤ 3 then 1 ≤ overlap
  else
    decide (2 ≤ overlap) ||
      decide ((12 / 100 : ℚ) ≤ (overlap : ℚ) / ((max tokens.length 1 : ℕ) : ℚ))

theorem strContains_empty_haystack (t : String) (h : t ≠ "") :
    strContains "" t = false := by
  cases t with
  | mk data =>
    cases data with
    | nil => exact absurd rfl h
    | cons c l => rfl

theorem tokenize_query_tokens_ne_empty (q : String) :
    ∀ t ∈ _tokenize_query q, t ≠ "" := by
  intro t ht
  unfold _tokenize_query at ht
  obtain ⟨r, hr, he⟩ := List.mem_map.mp ht
  have hlen : 3 ≤ r.length := of_decide_eq_true (List.mem_filter.mp hr).2
  intro hempty
  rw [hempty] at he  -- he : lowerStr (String.mk r) = ""  (after subst)
  have : r.length = 0 := by
    have hdata := congrArg String.data he
    simpa [lowerStr] using congrArg List.length hdata
  omega

/-- On the token set of a query, the source's `_keep` agrees with the claim's
keep-condition: the source's extra early `False` on empty evidence text is
subsumed (no nonempty token is contained in an empty text). -/
theorem keepEvidence_eq_keepClaim (tokens : List String)
    (htok : ∀ t ∈ tokens, t ≠ "") (item : JValue) :
    keepEvidence tokens item = keepClaim tokens item := by
  by_cases htext : lowerStr (_evidence_text item) = ""
  · have hov : List.countP (fun t => strContains "" t) tokens = 0 := by
      rw [List.countP_eq_zero]
      intro t ht
      rw [strContains_empty_haystack t (htok t ht)]
      exact Bool.false_ne_true
    simp only [keepEvidence, keepClaim, htext, if_true, hov]
    by_cases hlen : tokens.length ≤ 3
    · simp [hlen]
    · have h2 : ¬ ((12 / 100 : ℚ) ≤
          ((0 : Nat) : ℚ) / ((max tokens.length 1 : ℕ) : ℚ)) := by
        push_cast
        rw [zero_div]
        norm_num
      simp [hlen, h2]
  · simp only [keepEvidence, keepClaim]
    rw [if_neg htext]

/-- **C9, amended.**  A token-free query returns the evidence list
unchanged; for queries with at least one (necessarily nonempty) token, the
relevance filter keeps exactly the items satisfying the claim's
keep-condition, falling back to the first 3 unfiltered items when nothing
passes.  Filtering never empties a non-empty evidence list, and the final
evidence stage reports `insufficient_evidence` exactly when the final list
is empty. -/
theorem C9_relevance_filter :
    (∀ (evidence : List JValue) (q : String),
      (dedupFS (_tokenize_query q) = [] →
        _filter_evidence_by_relevance evidence q = evidence) ∧
      (dedupFS (_tokenize_query q) ≠ [] →
        _filter_evidence_by_relevance evidence q =
          if (evidence.filter
              (keepClaim (dedupFS (_tokenize_query q)))).isEmpty then
            evidence.take 3
          else evidence.filter (keepClaim (dedupFS (_tokenize_query q)))) ∧
      (evidence ≠ [] → _filter_evidence_by_relevance evidence q ≠ [])) ∧
    ∀ (evidence : List JValue) (q : String),
      (routedEvidenceFinal evidence q).2 = true ↔
        (routedEvidenceFinal evidence q).1 = [] := by
  have hfilter : ∀ (evidence : List JValue) (q : String),
      dedupFS (_tokenize_query q) ≠ [] →
      evidence.filter (keepEvidence (dedupFS (_tokenize_query q))) =
        evidence.filter (keepClaim (dedupFS (_tokenize_query q))) := by
    intro evidence q _
    apply List.filter_congr
    intro item _
    apply keepEvidence_eq_keepClaim
    intro t ht
    exact tokenize_query_tokens_ne_empty q t ((mem_dedupFS _ t).mp ht)
  constructor
  · intro evidence q
    refine ⟨?_, ?_, ?_⟩
    · intro htok
      unfold _filter_evidence_by_relevance
      rw [if_pos htok]
    · intro htok
      unfold _filter_evidence_by_relevance
      rw [if_neg htok, hfilter evidence q htok]
    · intro hev
      unfold _filter_evidence_by_relevance
      by_cases htok : dedupFS (_tokenize_query q) = []
      · rw [if_pos htok]
        exact hev
      · rw [if_neg htok]
        by_cases hkept :
            (evidence.filter
              (keepEvidence (dedupFS (_tokenize_query q)))).isEmpty
        · rw [if_pos hkept]
          cases evidence with
          | nil => exact absurd rfl hev
          | cons a l =>
            intro hcon
            rw [show (3 : Nat) = 2 + 1 from rfl, List.take_succ_cons] at hcon
            exact List.cons_ne_nil _ _ hcon
        · rw [if_neg hkept]
          intro hnil
          rw [hnil] at hkept
          exact hkept rfl
  · intro evidence q
    unfold routedEvidenceFinal
    simp only
    exact List.isEmpty_iff

/-- Four evidence items with distinct paths. -/
def evFour : List JValue :=
  [.obj [("path", .str "aaa")], .obj [("path", .str "bbb")],
   .obj [("path", .str "ccc")], .obj [("path", .str "ddd")]]

/-- **C9, counterexample.**  `"hi"` tokenizes to nothing (tokens need at
least 3 characters).  The claim — every query with at most 3 tokens keeps
exactly the items sharing a token, falling back to the first 3 — would leave
at most 3 items, but the filter returns all 4 untouched. -/
theorem C9_counterexample :
    _filter_evidence_by_relevance evFour "hi" = evFour ∧
      evFour.length = 4 ∧ (evFour.take 3).length = 3 :=
  ⟨rfl, rfl, rfl⟩

/-- **C9, witness.**  The amended filter equation instantiated at a one-token
query and empty evidence. -/
theorem C9_witness :
    dedupFS (_tokenize_query "cat") ≠ [] ∧
      _filter_evidence_by_relevance [] "cat" =
        (if (List.filter (keepClaim (dedupFS (_tokenize_query "cat")))
            []).isEmpty then
          ([] : List JValue).take 3
        else List.filter (keepClaim (dedupFS (_tokenize_query "cat"))) []) :=
  ⟨by decide, (C9_relevance_filter.1 [] "cat").2.1 (by decide)⟩
